import Mathlib

/-!
Verification of the sensitivity-analysis module of `mfa_ua`
(`mfa_ua/sensitivity_analysis/get_sensitivities.py`).

Shallow embedding: Python floats are modelled by `ℚ`; a Python `dict`
(insertion-ordered) is an association list `List (String × ℚ)`; a fallible
target function is `List ℚ → Except String ℚ` (the `String` is the message of
whatever exception the callable raised); Python exceptions escaping
`get_sensitivities_numerical` are the constructors of `PyError`.  The numerical
engine threads the caller's `parameter_values` dictionary through explicitly
and returns it alongside the result, so frame effects are visible.
-/

/-- Exceptions that can escape `get_sensitivities_numerical`.  `raised` is an
exception of the target function propagating uncaught (the operating-point
evaluation on line 112 sits outside any `try`).  `nameErrorUndefined` models
the `except Error as e:` handler on line 146: `Error` is an undefined name in
Python, so when the target function raises during a perturbed evaluation the
handler itself fails with `NameError("name 'Error' is not defined")`; the
parameter, attempted value and original message are recorded here as the
chained exception context.  `valueErrorMissingWidth` is the
`raise ValueError(f"Missing differentiation interval for parameter ...")`
of lines 129-133, which names the offending parameter. -/
inductive PyError where
  | valueErrorMissingWidth (param : String)
  | nameErrorUndefined (param : String) (value : ℚ) (context : String)
  | raised (msg : String)
  | indexError
  | zeroDivisionError
deriving DecidableEq, Repr

/-- The `interval_width` argument: either a single float for all parameters or
a dict with a float per parameter (line 85, `dict[str, float] or float`). -/
inductive IntervalWidth where
  | scalar (w : ℚ)
  | mapping (m : List (String × ℚ))
deriving DecidableEq, Repr

/-- Python `d.copy()` followed by `d[k] = v` for a key `k` already present:
the value is replaced in place, insertion order is preserved, and the original
dictionary is untouched (lines 142-143). -/
def dictSet (d : List (String × ℚ)) (k : String) (v : ℚ) : List (String × ℚ) :=
  d.map (fun kv => if kv.1 = k then (kv.1, v) else kv)

/-- Resolution of `rel_width` (lines 122-135): a dict policy tries the
parameter's named entry, then the `"default"` entry, then raises `ValueError`
naming the parameter; a scalar policy is used as-is. -/
def resolveRelWidth (iw : IntervalWidth) (param : String) : Except PyError ℚ :=
  match iw with
  | .mapping m =>
    match m.lookup param with
    | some w => .ok w
    | none =>
      match m.lookup "default" with
      | some w => .ok w
      | none => .error (.valueErrorMissingWidth param)
  | .scalar w => .ok w

/-- Lines 116-119: `differentiation_interval_values[parameter]` with
`except (KeyError, TypeError)` yielding `None` — `none` covers both the dict
being `None` (TypeError) and the key being absent (KeyError). -/
def lookupExplicitInterval (di : Option (List (String × List ℚ)))
    (param : String) : Option (List ℚ) :=
  match di with
  | none => none
  | some d => d.lookup param

/-- The `[normal_value * (1 - rel_width), normal_value * (1 + rel_width)]`
interval of lines 136-139, after width resolution. -/
def widthInterval (iw : IntervalWidth) (param : String) (normal_value : ℚ) :
    Except PyError (List ℚ) :=
  match resolveRelWidth iw param with
  | .ok w => .ok [normal_value * (1 - w), normal_value * (1 + w)]
  | .error e => .error e

/-- Lines 116-139: an explicit interval is used verbatim when truthy
(a non-empty list); otherwise the width policy derives one. -/
def resolveInterval (di : Option (List (String × List ℚ))) (iw : IntervalWidth)
    (param : String) (normal_value : ℚ) : Except PyError (List ℚ) :=
  match lookupExplicitInterval di param with
  | some l => if l = [] then widthInterval iw param normal_value else .ok l
  | none => widthInterval iw param normal_value

/-- Round half to even, the rounding used by `np.round` (banker's rounding):
below the midpoint round down, above it round up, and on the exact midpoint
pick the even neighbour. -/
def roundHalfEven (q : ℚ) : ℤ :=
  if q < ⌊q⌋ + 1 / 2 then ⌊q⌋
  else if (⌊q⌋ : ℚ) + 1 / 2 < q then ⌊q⌋ + 1
  else if ⌊q⌋ % 2 = 0 then ⌊q⌋ else ⌊q⌋ + 1

/-- Model of `np.round(q, decimals)` over `ℚ`. -/
def npRound (q : ℚ) (decimals : ℕ) : ℚ :=
  (roundHalfEven (q * 10 ^ decimals) : ℚ) / 10 ^ decimals

/-- Python float division raising `ZeroDivisionError` on a zero divisor. -/
def pyDiv (a b : ℚ) : Except PyError ℚ :=
  if b = 0 then .error .zeroDivisionError else .ok (a / b)

/-- Python list indexing, raising `IndexError` out of range. -/
def pyIndex (l : List ℚ) (i : ℕ) : Except PyError ℚ :=
  match l.get? i with
  | some x => .ok x
  | none => .error .indexError

/-- The `results` loop of lines 140-150: for each value of the interval,
substitute it for `param` in a copy of `parameter_values` and call the
function.  A raising call hits the buggy `except Error as e:` handler, whose
undefined name `Error` turns the failure into a `NameError` (never a retry,
never suppression).  Also records every argument vector passed to `f`. -/
def evalAtValues (f : List ℚ → Except String ℚ) (pv : List (String × ℚ))
    (param : String) : List ℚ → Except PyError (List ℚ × List (List ℚ))
  | [] => .ok ([], [])
  | v :: rest =>
    let function_inputs := dictSet pv param v
    let args := function_inputs.map Prod.snd
    match f args with
    | .error e => .error (.nameErrorUndefined param v e)
    | .ok r =>
      match evalAtValues f pv param rest with
      | .error e => .error e
      | .ok (rs, cs) => .ok (r :: rs, args :: cs)

/-- Lines 159-165: the linearity ratio
`(normal_operating_point - results[0]) / (results[1] - normal_operating_point)`
with the `except ZeroDivisionError: second_derivative = 1` guard. -/
def linearityRatio (nop r0 r1 : ℚ) : ℚ :=
  if r1 - nop = 0 then 1 else (nop - r0) / (r1 - nop)

/-- Per-parameter result, the inner dict of lines 173-176. -/
structure ParamResult where
  absolute_sensitivity : ℚ
  relative_sensitivity : ℚ
deriving DecidableEq, Repr

/-- One iteration of the `for parameter, normal_value in parameter_values.items()`
loop (lines 115-176): resolve the differentiation interval, evaluate the
function at its values, form the central difference and the relative
sensitivity, run the linearity diagnostic (`some (param, ratio)` when the
rounded ratio differs from 1, i.e. line 170's print), and round the outputs.
Returns the rounded result, the optional diagnostic, and the calls made. -/
def processParam (f : List ℚ → Except String ℚ) (nop : ℚ)
    (pv : List (String × ℚ)) (iw : IntervalWidth)
    (di : Option (List (String × List ℚ))) (param : String) (normal_value : ℚ) :
    Except PyError (ParamResult × Option (String × ℚ) × List (List ℚ)) :=
  match resolveInterval di iw param normal_value with
  | .error e => .error e
  | .ok differentiation_interval =>
    match evalAtValues f pv param differentiation_interval with
    | .error e => .error e
    | .ok (results, calls) =>
      match pyIndex results 1 with
      | .error e => .error e
      | .ok r1 =>
        match pyIndex results 0 with
        | .error e => .error e
        | .ok r0 =>
          match pyIndex differentiation_interval 1 with
          | .error e => .error e
          | .ok i1 =>
            match pyIndex differentiation_interval 0 with
            | .error e => .error e
            | .ok i0 =>
              match pyDiv (r1 - r0) (i1 - i0) with
              | .error e => .error e
              | .ok absolute_sensitivity =>
                match pyDiv (absolute_sensitivity * normal_value) nop with
                | .error e => .error e
                | .ok relative_sensitivity =>
                  let second_derivative := linearityRatio nop r0 r1
                  let diag :=
                    if npRound second_derivative 5 = 1 then none
                    else some (param, second_derivative)
                  .ok ({ absolute_sensitivity := npRound absolute_sensitivity 0,
                         relative_sensitivity := npRound relative_sensitivity 2 },
                       diag, calls)

/-- Output of a successful `get_sensitivities_numerical` call: the
`sensitivities` dict in insertion order, the diagnostics printed by the
linearity check, and the argument vectors passed to the target function in
call order. -/
structure NumOutput where
  sensitivities : List (String × ParamResult)
  diagnostics : List (String × ℚ)
  calls : List (List ℚ)
deriving DecidableEq, Repr

/-- The parameter loop of lines 115-176, threading the (never written)
`parameter_values` dictionary as explicit state and returning it in both
outcomes. -/
def sensLoop (f : List ℚ → Except String ℚ) (nop : ℚ) (iw : IntervalWidth)
    (di : Option (List (String × List ℚ))) (pv : List (String × ℚ)) :
    List (String × ℚ) →
      Except PyError (List (String × ParamResult) × List (String × ℚ) × List (List ℚ))
        × List (String × ℚ)
  | [] => (.ok ([], [], []), pv)
  | (param, normal_value) :: rest =>
    match processParam f nop pv iw di param normal_value with
    | .error e => (.error e, pv)
    | .ok (res, diag, calls) =>
      match sensLoop f nop iw di pv rest with
      | (.error e, pv') => (.error e, pv')
      | (.ok (entries, diags, callsRest), pv') =>
        (.ok ((param, res) :: entries, diag.toList ++ diags, calls ++ callsRest), pv')

/-- Model of `get_sensitivities_numerical` (lines 82-177).  The operating
point `function(*parameter_values.values())` is evaluated once, up front
(line 112, outside any `try`, so its failure propagates unwrapped); then each
parameter is processed in dictionary order, stopping at the first failure.
The second component is the caller's `parameter_values` dictionary after the
call. -/
def get_sensitivities_numerical (f : List ℚ → Except String ℚ)
    (parameter_values : List (String × ℚ)) (interval_width : IntervalWidth)
    (differentiation_interval_values : Option (List (String × List ℚ))) :
    Except PyError NumOutput × List (String × ℚ) :=
  match f (parameter_values.map Prod.snd) with
  | .error e => (.error (.raised e), parameter_values)
  | .ok normal_operating_point =>
    match sensLoop f normal_operating_point interval_width
        differentiation_interval_values parameter_values parameter_values with
    | (.error e, pv') => (.error e, pv')
    | (.ok (entries, diags, calls), pv') =>
      (.ok { sensitivities := entries, diagnostics := diags,
             calls := parameter_values.map Prod.snd :: calls }, pv')

/-!
Symbolic engine (`partially_derivate`, `get_sensitivity_for_parameter`,
`get_sensitivities`, lines 6-79).  A sympy expression over the parameter
symbols is a `SymExpr` with variables indexed by position in the `parameters`
list.  Sympy's automatic evaluation (`0*e = 0`, `e+0 = e`, `0/e = 0`, `1*e = e`)
is mirrored by the smart constructors, so that the derivative produced by the
chain rules has the same evaluated value as sympy's.  Evaluation of an
expression at a rational assignment returns `none` when the value is not a
rational number (`log` away from 1, irrational powers, division by zero i.e.
sympy `zoo`/`nan`).
-/

/-- Sympy expression AST over positionally indexed parameter symbols. -/
inductive SymExpr where
  | const (c : ℚ)
  | var (i : ℕ)
  | add (a b : SymExpr)
  | sub (a b : SymExpr)
  | mul (a b : SymExpr)
  | div (a b : SymExpr)
  | pow (a b : SymExpr)
  | log (a : SymExpr)
deriving DecidableEq, Repr

/-- Sympy auto-simplifying sum: `0 + e = e + 0 = e`. -/
def SymExpr.addS (a b : SymExpr) : SymExpr :=
  if a = .const 0 then b else if b = .const 0 then a else .add a b

/-- Sympy auto-simplifying difference: `e - 0 = e`. -/
def SymExpr.subS (a b : SymExpr) : SymExpr :=
  if b = .const 0 then a else .sub a b

/-- Sympy auto-simplifying product: `0 * e = 0`, `1 * e = e`. -/
def SymExpr.mulS (a b : SymExpr) : SymExpr :=
  if a = .const 0 ∨ b = .const 0 then .const 0
  else if a = .const 1 then b else if b = .const 1 then a else .mul a b

/-- Sympy auto-simplifying quotient: `0 / e = 0`, `e / 1 = e`. -/
def SymExpr.divS (a b : SymExpr) : SymExpr :=
  if a = .const 0 then .const 0 else if b = .const 1 then a else .div a b

/-- Sympy symbolic differentiation with respect to the `i`-th symbol
(`sy.diff`, used by `partially_derivate` on line 20), via the usual chain
rules — `Pow._eval_derivative` uses
`self * (dexp * log(base) + dbase * exp / base)` — with sympy's automatic
simplification folding away the zero branches. -/
def SymExpr.deriv (i : ℕ) : SymExpr → SymExpr
  | .const _ => .const 0
  | .var j => if j = i then .const 1 else .const 0
  | .add a b => addS (a.deriv i) (b.deriv i)
  | .sub a b => subS (a.deriv i) (b.deriv i)
  | .mul a b => addS (mulS (a.deriv i) b) (mulS a (b.deriv i))
  | .div a b => divS (subS (mulS (a.deriv i) b) (mulS a (b.deriv i))) (mulS b b)
  | .pow a b =>
      mulS (.pow a b) (addS (mulS (b.deriv i) (.log a)) (mulS b (divS (a.deriv i) a)))
  | .log a => divS (a.deriv i) a

/-- Whether the `i`-th symbol is free in the expression. -/
def SymExpr.occurs (i : ℕ) : SymExpr → Bool
  | .const _ => false
  | .var j => j = i
  | .add a b => a.occurs i || b.occurs i
  | .sub a b => a.occurs i || b.occurs i
  | .mul a b => a.occurs i || b.occurs i
  | .div a b => a.occurs i || b.occurs i
  | .pow a b => a.occurs i || b.occurs i
  | .log a => a.occurs i

/-- Rational value of `x ** y` when it is one (integer exponents, or base 1);
`none` models a non-rational or undefined sympy value. -/
def ratPow (x y : ℚ) : Option ℚ :=
  if y.den = 1 then
    if y.num < 0 ∧ x = 0 then none else some (x ^ y.num)
  else if x = 1 then some 1 else none

/-- Evaluation of an expression at a rational assignment of the symbols
(the `.subs(parameter_values)` calls on lines 42-44); `none` when the result
is not a rational number. -/
def SymExpr.eval (env : ℕ → ℚ) : SymExpr → Option ℚ
  | .const c => some c
  | .var i => some (env i)
  | .add a b => do
      let x ← a.eval env
      let y ← b.eval env
      some (x + y)
  | .sub a b => do
      let x ← a.eval env
      let y ← b.eval env
      some (x - y)
  | .mul a b => do
      let x ← a.eval env
      let y ← b.eval env
      some (x * y)
  | .div a b => do
      let x ← a.eval env
      let y ← b.eval env
      if y = 0 then none else some (x / y)
  | .pow a b => do
      let x ← a.eval env
      let y ← b.eval env
      ratPow x y
  | .log a => do
      let x ← a.eval env
      if x = 1 then some 0 else none

/-- Model of `get_sensitivity_for_parameter` (lines 24-53): evaluate the
expression at the operating point, evaluate the symbolic partial derivative
there, and form `absolute * value / normal_operating_point`.  Returns `none`
when any of these is not a rational number (in particular a zero
operating-point output, where sympy produces `nan`/`zoo`). -/
def get_sensitivity_for_parameter (e : SymExpr) (env : ℕ → ℚ) (i : ℕ) :
    Option ParamResult := do
  let normal_operating_point ← e.eval env
  let absolute_sensitivity ← (e.deriv i).eval env
  if normal_operating_point = 0 then none
  else
    some { absolute_sensitivity := absolute_sensitivity,
           relative_sensitivity :=
             absolute_sensitivity * env i / normal_operating_point }

/-- The `for parameter in parameters` loop of lines 74-78, with the running
symbol index made explicit. -/
def get_sensitivities_go (e : SymExpr) (env : ℕ → ℚ) :
    ℕ → List String → Option (List (String × ParamResult))
  | _, [] => some []
  | i, name :: rest => do
    let r ← get_sensitivity_for_parameter e env i
    let rs ← get_sensitivities_go e env (i + 1) rest
    some ((name, r) :: rs)

/-- Model of `get_sensitivities` (lines 56-79): one entry per parameter, keyed
by the symbol's name, in the order of the `parameters` list. -/
def get_sensitivities (e : SymExpr) (parameters : List String) (env : ℕ → ℚ) :
    Option (List (String × ParamResult)) :=
  get_sensitivities_go e env 0 parameters

/-!
Concrete instances: the test function of the spec and demo,
`f(x,y,z,w) = (x*y + x**z)*w` at ``x:1, y:2, z:3, w:4``, for the numerical
path (a Python callable, `**` modelled by `ratPow`) and for the symbolic path
(a `SymExpr`); and a callable that raises at a perturbed value, to exhibit the
behaviour of the `except Error` handler.
-/

/-- The demo's `test_function(x, y, z, w) = (x * y + x**z) * w` as a numeric
callable; raises (`TypeError`) on a wrong arity, and reports a power whose
value is not rational. -/
def fC6 : List ℚ → Except String ℚ := fun args =>
  match args with
  | [x, y, z, w] =>
    match ratPow x z with
    | some p => .ok ((x * y + p) * w)
    | none => .error "irrational power"
  | _ => .error "TypeError"

/-- The demo's operating point `x:1, y:2, z:3, w:4`, in insertion order. -/
def pvC6 : List (String × ℚ) := [("x", 1), ("y", 2), ("z", 3), ("w", 4)]

/-- The same function as a symbolic expression `(x*y + x**z) * w` over the
symbols `x, y, z, w` (positions 0..3). -/
def exprC6 : SymExpr :=
  .mul (.add (.mul (.var 0) (.var 1)) (.pow (.var 0) (.var 2))) (.var 3)

/-- The operating-point assignment for the symbolic path. -/
def envC6 : ℕ → ℚ := fun i => (pvC6.map Prod.snd).getD i 0

/-- A target function that succeeds at the operating point `x = 1` but raises
(message `"boom"`) at any other value — in particular at the perturbed values
of the default differentiation interval. -/
def fFail : List ℚ → Except String ℚ := fun args =>
  match args with
  | [x] => if x = 1 then .ok 5 else .error "boom"
  | _ => .error "TypeError"

/-!
Concrete instances used by the witnesses below.
-/

/-- A constant target function (value 7), successful on any argument list. -/
def fone : List ℚ → Except String ℚ := fun _ => .ok 7

/-- The cube function of one parameter: its sensitivities at `x = 1` have
more precision than the rounded output (true absolute sensitivity 3.0025). -/
def fCube : List ℚ → Except String ℚ := fun args =>
  match args with
  | [x] => .ok (x * x * x)
  | _ => .error "TypeError"

/-- Output of `get_sensitivities_numerical fone [("x", 1)]` at default width. -/
def outW : NumOutput :=
  ⟨[("x", ⟨0, 0⟩)], [], [[1], [19 / 20], [21 / 20]]⟩

/-- Output of `get_sensitivities_numerical fCube [("x", 1)]` at default width. -/
def outCube : NumOutput :=
  ⟨[("x", ⟨3, 3⟩)], [("x", 1141 / 1261)], [[1], [19 / 20], [21 / 20]]⟩

/-- C1: the claim (and the source's own docstring, lines 107-109) says a
failing perturbed evaluation is wrapped and re-raised as a `ValueError`
identifying the parameter and the attempted value.  The code instead escapes
with a `NameError`: the handler `except Error as e:` (line 146) references the
undefined name `Error`, so evaluating the handler raises
`NameError("name 'Error' is not defined")` and the `raise ValueError(...)`
body is never reached.  Concretely, for a function that raises `"boom"` at the
perturbed value `0.95` of parameter `"x"` (operating value 1, default width
0.05), the call escapes with the `NameError`, not with any `ValueError`. -/
theorem C1_perturbed_failure_escapes_as_name_error :
    (get_sensitivities_numerical fFail [("x", 1)] (.scalar (1 / 20)) none).1 =
      .error (.nameErrorUndefined "x" (19 / 20) "boom") := by
  norm_num +decide [get_sensitivities_numerical, sensLoop, processParam, resolveInterval,
    lookupExplicitInterval, widthInterval, resolveRelWidth, evalAtValues, dictSet,
    fFail, pyIndex, pyDiv, linearityRatio, npRound, roundHalfEven]

/-- C6: for `f(x,y,z,w) = (x*y + x**z)*w` at `x:1, y:2, z:3, w:4` with the
default interval width `0.05`, the absolute sensitivities of the numerical
engine (already integer-rounded) and of the symbolic engine coincide exactly,
parameter by parameter — `x: 20, y: 4, z: 0, w: 3` — so in particular they
agree to within the numerical path's integer rounding. -/
theorem C6_numerical_agrees_with_symbolic :
    ((get_sensitivities_numerical fC6 pvC6 (.scalar (1 / 20)) none).1.map
        (fun o => o.sensitivities.map (fun e => (e.1, e.2.absolute_sensitivity)))) =
      .ok [("x", 20), ("y", 4), ("z", 0), ("w", 3)] ∧
    ((get_sensitivities exprC6 ["x", "y", "z", "w"] envC6).map
        (fun s => s.map (fun e => (e.1, e.2.absolute_sensitivity)))) =
      some [("x", 20), ("y", 4), ("z", 0), ("w", 3)] := by
  constructor
  · norm_num +decide [get_sensitivities_numerical, sensLoop, processParam, resolveInterval,
      lookupExplicitInterval, widthInterval, resolveRelWidth, evalAtValues, dictSet,
      fC6, pvC6, ratPow, pyIndex, pyDiv, linearityRatio, npRound, roundHalfEven,
      Except.map]
  · norm_num +decide [get_sensitivities, get_sensitivities_go, get_sensitivity_for_parameter,
      exprC6, envC6, pvC6, SymExpr.eval, SymExpr.deriv, SymExpr.addS, SymExpr.subS,
      SymExpr.mulS, SymExpr.divS, ratPow, Option.bind]

theorem sensLoop_snd (f : List ℚ → Except String ℚ) (nop : ℚ) (iw : IntervalWidth)
    (di : Option (List (String × List ℚ))) (pv : List (String × ℚ)) :
    ∀ l, (sensLoop f nop iw di pv l).2 = pv := by
  intro l
  induction l with
  | nil => rfl
  | cons hd tl ih =>
    obtain ⟨param, v⟩ := hd
    simp only [sensLoop]
    split
    · rfl
    · split
      · next hs => rw [hs] at ih; exact ih
      · next hs => rw [hs] at ih; exact ih

theorem sensLoop_ok_keys (f : List ℚ → Except String ℚ) (nop : ℚ) (iw : IntervalWidth)
    (di : Option (List (String × List ℚ))) (pv : List (String × ℚ)) :
    ∀ l entries diags calls pv',
      sensLoop f nop iw di pv l = (.ok (entries, diags, calls), pv') →
      entries.map Prod.fst = l.map Prod.fst := by
  intro l
  induction l with
  | nil =>
    intro entries diags calls pv' h
    simp only [sensLoop, Prod.mk.injEq, Except.ok.injEq] at h
    obtain ⟨⟨h1, -, -⟩, -⟩ := h
    simp [← h1]
  | cons hd tl ih =>
    intro entries diags calls pv' h
    obtain ⟨param, v⟩ := hd
    simp only [sensLoop] at h
    split at h
    · simp at h
    · split at h
      · simp at h
      · next es ds cs pv'' hs =>
        simp only [Prod.mk.injEq, Except.ok.injEq] at h
        obtain ⟨⟨h1, -, -⟩, -⟩ := h
        rw [← h1]
        simpa using ih es ds cs pv'' hs

theorem sensLoop_ok_get (f : List ℚ → Except String ℚ) (nop : ℚ) (iw : IntervalWidth)
    (di : Option (List (String × List ℚ))) (pv : List (String × ℚ)) :
    ∀ l entries diags calls pv',
      sensLoop f nop iw di pv l = (.ok (entries, diags, calls), pv') →
      ∀ i p v, l.get? i = some (p, v) →
        ∃ r d c, processParam f nop pv iw di p v = .ok (r, d, c) ∧
          entries.get? i = some (p, r) := by
  intro l
  induction l with
  | nil => intro entries diags calls pv' h i p v hi; simp at hi
  | cons hd tl ih =>
    intro entries diags calls pv' h i p v hi
    obtain ⟨param, w⟩ := hd
    simp only [sensLoop] at h
    split at h
    · simp at h
    · next res diag calls0 hp =>
      split at h
      · simp at h
      · next es ds cs pv'' hs =>
        simp only [Prod.mk.injEq, Except.ok.injEq] at h
        obtain ⟨⟨h1, -, -⟩, -⟩ := h
        cases i with
        | zero =>
          simp only [List.get?] at hi
          cases hi
          exact ⟨res, diag, calls0, hp, by rw [← h1]; rfl⟩
        | succ n =>
          simp only [List.get?] at hi
          obtain ⟨r, d, c, hpp, hget⟩ := ih es ds cs pv'' hs n p v hi
          exact ⟨r, d, c, hpp, by rw [← h1]; simpa using hget⟩

theorem sensLoop_ok_mem (f : List ℚ → Except String ℚ) (nop : ℚ) (iw : IntervalWidth)
    (di : Option (List (String × List ℚ))) (pv : List (String × ℚ)) :
    ∀ l entries diags calls pv',
      sensLoop f nop iw di pv l = (.ok (entries, diags, calls), pv') →
      ∀ e, e ∈ entries → ∃ v d c,
        processParam f nop pv iw di e.1 v = .ok (e.2, d, c) := by
  intro l
  induction l with
  | nil =>
    intro entries diags calls pv' h e he
    simp only [sensLoop, Prod.mk.injEq, Except.ok.injEq] at h
    obtain ⟨⟨h1, -, -⟩, -⟩ := h
    rw [← h1] at he
    simp at he
  | cons hd tl ih =>
    intro entries diags calls pv' h e he
    obtain ⟨param, w⟩ := hd
    simp only [sensLoop] at h
    split at h
    · simp at h
    · next res diag calls0 hp =>
      split at h
      · simp at h
      · next es ds cs pv'' hs =>
        simp only [Prod.mk.injEq, Except.ok.injEq] at h
        obtain ⟨⟨h1, -, -⟩, -⟩ := h
        rw [← h1] at he
        rcases List.mem_cons.mp he with h0 | hmem
        · subst h0
          exact ⟨w, diag, calls0, hp⟩
        · exact ih es ds cs pv'' hs e hmem

theorem sensLoop_prefix_error (f : List ℚ → Except String ℚ) (nop : ℚ)
    (iw : IntervalWidth) (di : Option (List (String × List ℚ)))
    (pv : List (String × ℚ)) :
    ∀ l1 p v l2 err,
      (∀ q w, (q, w) ∈ l1 → ∃ r d c, processParam f nop pv iw di q w = .ok (r, d, c)) →
      processParam f nop pv iw di p v = .error err →
      (sensLoop f nop iw di pv (l1 ++ (p, v) :: l2)).1 = .error err := by
  intro l1
  induction l1 with
  | nil =>
    intro p v l2 err hok herr
    simp only [List.nil_append, sensLoop, herr]
  | cons hd tl ih =>
    intro p v l2 err hok herr
    obtain ⟨param, w⟩ := hd
    simp only [List.cons_append, sensLoop]
    obtain ⟨r, d, c, hp⟩ := hok param w (by simp)
    rw [hp]
    have htl := ih p v l2 err (fun q w2 hm => hok q w2 (by simp [hm])) herr
    split
    · rename_i e hs
      cases hs
    · rename_i res diag calls0 hs
      split
      · rename_i e2 pv2 hs2
        simp only [List.append_eq] at hs2
        rw [hs2] at htl
        exact htl
      · rename_i es ds cs pv2 hs2
        simp only [List.append_eq] at hs2
        rw [hs2] at htl
        simp at htl

theorem processParam_ok_elim (f : List ℚ → Except String ℚ) (nop : ℚ)
    (pv : List (String × ℚ)) (iw : IntervalWidth)
    (di : Option (List (String × List ℚ))) (param : String) (v : ℚ)
    (res : ParamResult) (diag : Option (String × ℚ)) (calls : List (List ℚ))
    (h : processParam f nop pv iw di param v = .ok (res, diag, calls)) :
    ∃ interval results r0 r1 i0 i1,
      resolveInterval di iw param v = .ok interval ∧
      evalAtValues f pv param interval = .ok (results, calls) ∧
      results.get? 1 = some r1 ∧ results.get? 0 = some r0 ∧
      interval.get? 1 = some i1 ∧ interval.get? 0 = some i0 ∧
      i1 - i0 ≠ 0 ∧ nop ≠ 0 ∧
      res = ⟨npRound ((r1 - r0) / (i1 - i0)) 0,
             npRound ((r1 - r0) / (i1 - i0) * v / nop) 2⟩ ∧
      diag = (if npRound (linearityRatio nop r0 r1) 5 = 1 then none
              else some (param, linearityRatio nop r0 r1)) := by
  unfold processParam at h
  split at h
  · cases h
  · rename_i interval hint
    split at h
    · cases h
    · rename_i results calls0 hev
      split at h
      · cases h
      · rename_i r1 hr1
        split at h
        · cases h
        · rename_i r0 hr0
          split at h
          · cases h
          · rename_i i1 hi1
            split at h
            · cases h
            · rename_i i0 hi0
              split at h
              · cases h
              · rename_i abs habs
                split at h
                · cases h
                · rename_i rel hrel
                  simp only [Except.ok.injEq, Prod.mk.injEq] at h
                  obtain ⟨hres, hdiag, hcalls⟩ := h
                  unfold pyDiv at habs hrel
                  split at habs
                  · cases habs
                  · split at hrel
                    · cases hrel
                    · rename_i hnop0 hio0
                      simp only [Except.ok.injEq] at habs hrel
                      refine ⟨interval, results, r0, r1, i0, i1, hint, hcalls ▸ hev,
                        ?_, ?_, ?_, ?_, ?_, ?_, ?_, ?_⟩
                      · unfold pyIndex at hr1; split at hr1
                        · rename_i x hx; simp only [Except.ok.injEq] at hr1; rw [hr1] at hx; exact hx
                        · cases hr1
                      · unfold pyIndex at hr0; split at hr0
                        · rename_i x hx; simp only [Except.ok.injEq] at hr0; rw [hr0] at hx; exact hx
                        · cases hr0
                      · unfold pyIndex at hi1; split at hi1
                        · rename_i x hx; simp only [Except.ok.injEq] at hi1; rw [hi1] at hx; exact hx
                        · cases hi1
                      · unfold pyIndex at hi0; split at hi0
                        · rename_i x hx; simp only [Except.ok.injEq] at hi0; rw [hi0] at hx; exact hx
                        · cases hi0
                      · exact hnop0
                      · exact hio0
                      · rw [← hres, ← hrel, ← habs]
                      · rw [← hdiag]

theorem processParam_ok_intro (f : List ℚ → Except String ℚ) (nop : ℚ)
    (pv : List (String × ℚ)) (iw : IntervalWidth)
    (di : Option (List (String × List ℚ))) (param : String) (v : ℚ)
    (interval results : List ℚ) (calls : List (List ℚ)) (r0 r1 i0 i1 : ℚ)
    (hint : resolveInterval di iw param v = .ok interval)
    (hev : evalAtValues f pv param interval = .ok (results, calls))
    (hr1 : results.get? 1 = some r1) (hr0 : results.get? 0 = some r0)
    (hi1 : interval.get? 1 = some i1) (hi0 : interval.get? 0 = some i0)
    (hden : i1 - i0 ≠ 0) (hnop : nop ≠ 0) :
    processParam f nop pv iw di param v =
      .ok (⟨npRound ((r1 - r0) / (i1 - i0)) 0,
            npRound ((r1 - r0) / (i1 - i0) * v / nop) 2⟩,
           (if npRound (linearityRatio nop r0 r1) 5 = 1 then none
            else some (param, linearityRatio nop r0 r1)),
           calls) := by
  simp only [processParam, hint, hev, pyIndex, hr1, hr0, hi1, hi0, pyDiv,
    if_neg hden, if_neg hnop]

theorem evalAtValues_ok_get (f : List ℚ → Except String ℚ)
    (pv : List (String × ℚ)) (param : String) :
    ∀ vals results calls, evalAtValues f pv param vals = .ok (results, calls) →
      results.length = vals.length ∧
      ∀ j x, vals.get? j = some x →
        ∃ r, results.get? j = some r ∧
          f ((dictSet pv param x).map Prod.snd) = .ok r ∧
          calls.get? j = some ((dictSet pv param x).map Prod.snd) := by
  intro vals
  induction vals with
  | nil =>
    intro results calls h
    simp only [evalAtValues, Except.ok.injEq, Prod.mk.injEq] at h
    obtain ⟨h1, h2⟩ := h
    subst h1; subst h2
    exact ⟨rfl, by intro j x hj; simp at hj⟩
  | cons v rest ih =>
    intro results calls h
    simp only [evalAtValues] at h
    split at h
    · cases h
    · rename_i r hr
      split at h
      · cases h
      · rename_i rs cs hrec
        simp only [Except.ok.injEq, Prod.mk.injEq] at h
        obtain ⟨h1, h2⟩ := h
        subst h1; subst h2
        obtain ⟨hlen, hget⟩ := ih rs cs hrec
        refine ⟨by simpa using hlen, ?_⟩
        intro j x hj
        cases j with
        | zero =>
          simp only [List.get?] at hj
          cases hj
          exact ⟨r, rfl, hr, rfl⟩
        | succ n =>
          simp only [List.get?] at hj
          obtain ⟨r2, hr2, hf2, hc2⟩ := hget n x hj
          exact ⟨r2, by simpa using hr2, hf2, by simpa using hc2⟩

/-- Keys of a successful symbolic run are the parameter names in order. -/
theorem get_sensitivities_go_keys (e : SymExpr) (env : ℕ → ℚ) :
    ∀ names i s, get_sensitivities_go e env i names = some s →
      s.map Prod.fst = names := by
  intro names
  induction names with
  | nil =>
    intro i s h
    simp only [get_sensitivities_go, Option.some.injEq] at h
    rw [← h]
    rfl
  | cons nm rest ih =>
    intro i s h
    simp only [get_sensitivities_go] at h
    cases hg : get_sensitivity_for_parameter e env i with
    | none => rw [hg] at h; exact Option.noConfusion h
    | some r =>
      rw [hg] at h
      cases hrs : get_sensitivities_go e env (i + 1) rest with
      | none => rw [hrs] at h; exact Option.noConfusion h
      | some rs =>
        rw [hrs] at h
        have h2 : (nm, r) :: rs = s := Option.some.inj h
        rw [← h2]
        simpa using ih (i + 1) rs hrs

/-- C10: `get_sensitivities_numerical` never mutates the caller's
`parameter_values`: every perturbed evaluation substitutes into a fresh copy
(`parameter_values.copy()` on line 142), so the dictionary returned with the
outcome — success or failure — is exactly the input one. -/
theorem C10_parameter_values_never_mutated (f : List ℚ → Except String ℚ)
    (parameter_values : List (String × ℚ)) (iw : IntervalWidth)
    (di : Option (List (String × List ℚ))) :
    (get_sensitivities_numerical f parameter_values iw di).2 = parameter_values := by
  unfold get_sensitivities_numerical
  split
  · rfl
  · rename_i nop hnop
    split
    · rename_i e pv' hs
      have h := sensLoop_snd f nop iw di parameter_values parameter_values
      rw [hs] at h
      exact h
    · rename_i entries diags calls pv' hs
      have h := sensLoop_snd f nop iw di parameter_values parameter_values
      rw [hs] at h
      exact h

/-- C9: a successful call of either engine returns its result mapping keyed
by parameter name in exactly the input order — the `parameter_values`
insertion order for the numerical engine, the `parameters` list order for the
symbolic one. -/
theorem C9_result_preserves_parameter_order (f : List ℚ → Except String ℚ)
    (parameter_values : List (String × ℚ)) (iw : IntervalWidth)
    (di : Option (List (String × List ℚ))) (out : NumOutput)
    (e : SymExpr) (parameters : List String) (env : ℕ → ℚ)
    (s : List (String × ParamResult)) :
    ((get_sensitivities_numerical f parameter_values iw di).1 = .ok out →
      out.sensitivities.map Prod.fst = parameter_values.map Prod.fst) ∧
    (get_sensitivities e parameters env = some s →
      s.map Prod.fst = parameters) := by
  constructor
  · intro h
    unfold get_sensitivities_numerical at h
    split at h
    · cases h
    · rename_i nop hnop
      split at h
      · cases h
      · rename_i entries diags calls pv' hs
        simp only [Except.ok.injEq] at h
        rw [← h]
        exact sensLoop_ok_keys f nop iw di parameter_values parameter_values
          entries diags calls pv' hs
  · intro h
    exact get_sensitivities_go_keys e env parameters 0 s h

/-- Width resolution fails with the parameter-naming `ValueError` when the
mapping has neither a named nor a `"default"` entry. -/
theorem resolveInterval_missing_width (di : Option (List (String × List ℚ)))
    (m : List (String × ℚ)) (p : String) (v : ℚ)
    (hexp : lookupExplicitInterval di p = none ∨ lookupExplicitInterval di p = some [])
    (hnamed : m.lookup p = none) (hdef : m.lookup "default" = none) :
    resolveInterval di (.mapping m) p v = .error (.valueErrorMissingWidth p) := by
  have hw : widthInterval (.mapping m) p v = .error (.valueErrorMissingWidth p) := by
    simp [widthInterval, resolveRelWidth, hnamed, hdef]
  rcases hexp with hexp | hexp <;> simp [resolveInterval, hexp, hw]

/-- A failing interval resolution is the whole iteration's failure. -/
theorem processParam_error_of_resolve (f : List ℚ → Except String ℚ) (nop : ℚ)
    (pv : List (String × ℚ)) (iw : IntervalWidth)
    (di : Option (List (String × List ℚ))) (p : String) (v : ℚ) (err : PyError)
    (h : resolveInterval di iw p v = .error err) :
    processParam f nop pv iw di p v = .error err := by
  simp [processParam, h]

/-- C4: with a mapping-typed `interval_width`, a parameter that has no
explicit differentiation interval, no named width entry and no `"default"`
entry makes the whole call abort with the `ValueError` naming that parameter
(provided the loop reaches it, i.e. the parameters before it process without
failing); the error return carries no partial results for the other
parameters. -/
theorem C4_missing_width_aborts_call (f : List ℚ → Except String ℚ)
    (m : List (String × ℚ)) (di : Option (List (String × List ℚ)))
    (pv1 pv2 : List (String × ℚ)) (p : String) (v : ℚ) (nop : ℚ)
    (hnop : f ((pv1 ++ (p, v) :: pv2).map Prod.snd) = .ok nop)
    (hpre : ∀ q w, (q, w) ∈ pv1 → ∃ r d c,
      processParam f nop (pv1 ++ (p, v) :: pv2) (.mapping m) di q w = .ok (r, d, c))
    (hexp : lookupExplicitInterval di p = none ∨ lookupExplicitInterval di p = some [])
    (hnamed : m.lookup p = none) (hdef : m.lookup "default" = none) :
    (get_sensitivities_numerical f (pv1 ++ (p, v) :: pv2) (.mapping m) di).1 =
      .error (.valueErrorMissingWidth p) := by
  have herr : processParam f nop (pv1 ++ (p, v) :: pv2) (.mapping m) di p v =
      .error (.valueErrorMissingWidth p) :=
    processParam_error_of_resolve f nop _ _ di p v _
      (resolveInterval_missing_width di m p v hexp hnamed hdef)
  have hloop := sensLoop_prefix_error f nop (.mapping m) di (pv1 ++ (p, v) :: pv2)
    pv1 p v pv2 _ hpre herr
  unfold get_sensitivities_numerical
  split
  · rename_i e hfe
    rw [hnop] at hfe
    exact Except.noConfusion hfe
  · rename_i nop2 hf2
    rw [hnop] at hf2
    obtain rfl : nop = nop2 := Except.ok.inj hf2
    split
    · rename_i e pv' hs2
      rw [hs2] at hloop
      simpa using hloop
    · rename_i entries diags calls pv' hs2
      rw [hs2] at hloop
      simp at hloop

/-- C3: interval resolution for a parameter.  A supplied non-empty explicit
interval is used verbatim and overrides any width policy — the whole
per-parameter computation is invariant under swapping the width policy.
Otherwise the interval is `[v*(1-w), v*(1+w)]`, with `w` the parameter's named
entry of a mapping policy, else the mapping's `"default"` entry, else the
scalar policy value. -/
theorem C3_explicit_interval_overrides_width_policy
    (di : Option (List (String × List ℚ))) (iw : IntervalWidth) (p : String) (v : ℚ) :
    (∀ l, lookupExplicitInterval di p = some l → l ≠ [] →
      (resolveInterval di iw p v = .ok l ∧
       ∀ (f : List ℚ → Except String ℚ) (nop : ℚ) (pv : List (String × ℚ))
         (iw2 : IntervalWidth),
         processParam f nop pv iw di p v = processParam f nop pv iw2 di p v)) ∧
    ((lookupExplicitInterval di p = none ∨ lookupExplicitInterval di p = some []) →
      ((∀ w, iw = .scalar w →
          resolveInterval di iw p v = .ok [v * (1 - w), v * (1 + w)]) ∧
       (∀ m w, iw = .mapping m → m.lookup p = some w →
          resolveInterval di iw p v = .ok [v * (1 - w), v * (1 + w)]) ∧
       (∀ m w, iw = .mapping m → m.lookup p = none → m.lookup "default" = some w →
          resolveInterval di iw p v = .ok [v * (1 - w), v * (1 + w)]))) := by
  constructor
  · intro l hl hne
    have hres : ∀ iw3 : IntervalWidth, resolveInterval di iw3 p v = .ok l := by
      intro iw3
      simp [resolveInterval, hl, hne]
    refine ⟨hres iw, ?_⟩
    intro f nop pv iw2
    unfold processParam
    rw [hres iw, hres iw2]
  · intro hexp
    refine ⟨?_, ?_, ?_⟩
    · intro w hw
      subst hw
      rcases hexp with hexp | hexp <;>
        simp [resolveInterval, hexp, widthInterval, resolveRelWidth]
    · intro m w hw hnamed
      subst hw
      rcases hexp with hexp | hexp <;>
        simp [resolveInterval, hexp, widthInterval, resolveRelWidth, hnamed]
    · intro m w hw hnamed hdef
      subst hw
      rcases hexp with hexp | hexp <;>
        simp [resolveInterval, hexp, widthInterval, resolveRelWidth, hnamed, hdef]

/-- C2: on any successful call, the operating-point output is the single
up-front evaluation of the full unperturbed parameter vector (the head of the
call trace), and for every parameter (position `i`, name `p`, operating value
`v`) the returned entry is the rounding of the central difference
`(f(high) - f(low)) / (high - low)` over the resolved interval, with relative
sensitivity `absolute * v / nop` where `nop` is that one shared
operating-point output. -/
theorem C2_sensitivity_formulas_with_shared_operating_point
    (f : List ℚ → Except String ℚ) (pv : List (String × ℚ)) (iw : IntervalWidth)
    (di : Option (List (String × List ℚ))) (out : NumOutput)
    (h : (get_sensitivities_numerical f pv iw di).1 = .ok out) :
    ∃ nop, f (pv.map Prod.snd) = .ok nop ∧
      out.calls.get? 0 = some (pv.map Prod.snd) ∧
      ∀ i p v, pv.get? i = some (p, v) →
        ∃ low high flow fhigh res,
          (∃ interval, resolveInterval di iw p v = .ok interval ∧
            interval.get? 0 = some low ∧ interval.get? 1 = some high) ∧
          f ((dictSet pv p low).map Prod.snd) = .ok flow ∧
          f ((dictSet pv p high).map Prod.snd) = .ok fhigh ∧
          out.sensitivities.get? i = some (p, res) ∧
          res.absolute_sensitivity = npRound ((fhigh - flow) / (high - low)) 0 ∧
          res.relative_sensitivity =
            npRound ((fhigh - flow) / (high - low) * v / nop) 2 := by
  unfold get_sensitivities_numerical at h
  split at h
  · cases h
  · rename_i nop hnop
    split at h
    · cases h
    · rename_i entries diags calls pv' hs
      simp only [Except.ok.injEq] at h
      refine ⟨nop, hnop, ?_, ?_⟩
      · rw [← h]
        rfl
      · intro i p v hi
        obtain ⟨r, d, c, hpp, hentry⟩ :=
          sensLoop_ok_get f nop iw di pv pv entries diags calls pv' hs i p v hi
        obtain ⟨interval, results, r0, r1, i0, i1, hint, hev, hr1, hr0, hi1, hi0,
          hden, hnz, hres, hdiag⟩ :=
          processParam_ok_elim f nop pv iw di p v r d c hpp
        obtain ⟨hlen, hget⟩ := evalAtValues_ok_get f pv p interval results c hev
        obtain ⟨rl, hrl, hfl, hcl⟩ := hget 0 i0 hi0
        obtain ⟨rh, hrh, hfh, hch⟩ := hget 1 i1 hi1
        have erl : rl = r0 := by rw [hrl] at hr0; exact Option.some.inj hr0
        have erh : rh = r1 := by rw [hrh] at hr1; exact Option.some.inj hr1
        subst erl
        subst erh
        refine ⟨i0, i1, rl, rh, r, ⟨interval, hint, hi0, hi1⟩, hfl, hfh, ?_, ?_, ?_⟩
        · rw [← h]
          exact hentry
        · rw [hres]
        · rw [hres]

/-- C5: the linearity diagnostic is total and non-fatal.  First conjunct: an
exactly-zero denominator `f(high) - f(operating_point)` makes the ratio
exactly 1 (the `except ZeroDivisionError` branch), so no exception escapes.
Second conjunct: whenever the sensitivity pipeline itself succeeds, the
iteration succeeds whatever the ratio's value — the returned (rounded)
sensitivities are exactly the difference-quotient values, unaffected by the
diagnostic, and a ratio whose 5-decimal rounding differs from 1 contributes
only the optional printed diagnostic entry. -/
theorem C5_zero_denominator_ratio_one_and_diagnostic_nonfatal (nop r0 r1 : ℚ) :
    (r1 - nop = 0 → linearityRatio nop r0 r1 = 1) ∧
    (∀ (f : List ℚ → Except String ℚ) (pv : List (String × ℚ))
       (iw : IntervalWidth) (di : Option (List (String × List ℚ)))
       (param : String) (v : ℚ) (interval results : List ℚ)
       (calls : List (List ℚ)) (i0 i1 : ℚ),
       resolveInterval di iw param v = .ok interval →
       evalAtValues f pv param interval = .ok (results, calls) →
       results.get? 1 = some r1 → results.get? 0 = some r0 →
       interval.get? 1 = some i1 → interval.get? 0 = some i0 →
       i1 - i0 ≠ 0 → nop ≠ 0 →
       processParam f nop pv iw di param v =
         .ok (⟨npRound ((r1 - r0) / (i1 - i0)) 0,
               npRound ((r1 - r0) / (i1 - i0) * v / nop) 2⟩,
              (if npRound (linearityRatio nop r0 r1) 5 = 1 then none
               else some (param, linearityRatio nop r0 r1)),
              calls)) := by
  constructor
  · intro hz
    simp [linearityRatio, hz]
  · intro f pv iw di param v interval results calls i0 i1
      hint hev hr1 hr0 hi1 hi0 hden hnz
    exact processParam_ok_intro f nop pv iw di param v interval results calls
      r0 r1 i0 i1 hint hev hr1 hr0 hi1 hi0 hden hnz

/-- Bound for the banker's rounding: it lands within half a unit. -/
theorem roundHalfEven_dist (q : ℚ) : |(roundHalfEven q : ℚ) - q| ≤ 1 / 2 := by
  unfold roundHalfEven
  have hfl : (⌊q⌋ : ℚ) ≤ q := Int.floor_le q
  have hfu : q < ⌊q⌋ + 1 := Int.lt_floor_add_one q
  split
  · rename_i hlt
    rw [abs_le]
    constructor <;> linarith
  · rename_i hge
    push_neg at hge
    split
    · rename_i hgt
      rw [abs_le]
      push_cast
      constructor <;> linarith
    · rename_i hle
      push_neg at hle
      split
      · rw [abs_le]
        constructor <;> linarith
      · rw [abs_le]
        push_cast
        constructor <;> linarith

/-- C7: every returned entry is rounded — the absolute sensitivity is an
integer value and the relative sensitivity is an integer number of
hundredths — and the rounding used (`npRound`, modelling `np.round`) moves a
value by at most half of the final decimal place (1/2 for integer rounding,
1/200 for 2-decimal rounding), so true values with more precision are indeed
rounded to the nearest representable one. -/
theorem C7_results_rounded_to_integer_and_centi (f : List ℚ → Except String ℚ)
    (pv : List (String × ℚ)) (iw : IntervalWidth)
    (di : Option (List (String × List ℚ))) (out : NumOutput)
    (h : (get_sensitivities_numerical f pv iw di).1 = .ok out) :
    (∀ e ∈ out.sensitivities,
      (∃ n : ℤ, e.2.absolute_sensitivity = (n : ℚ)) ∧
      (∃ m : ℤ, e.2.relative_sensitivity = (m : ℚ) / 100)) ∧
    (∀ q : ℚ, |npRound q 0 - q| ≤ 1 / 2 ∧ |npRound q 2 - q| ≤ 1 / 200) := by
  constructor
  · intro e he
    unfold get_sensitivities_numerical at h
    split at h
    · cases h
    · rename_i nop hnop
      split at h
      · cases h
      · rename_i entries diags calls pv' hs
        simp only [Except.ok.injEq] at h
        rw [← h] at he
        obtain ⟨v, d, c, hpp⟩ :=
          sensLoop_ok_mem f nop iw di pv pv entries diags calls pv' hs e he
        obtain ⟨-, -, r0, r1, i0, i1, -, -, -, -, -, -, -, -, hres, -⟩ :=
          processParam_ok_elim f nop pv iw di e.1 v e.2 d c hpp
        rw [hres]
        refine ⟨⟨roundHalfEven ((r1 - r0) / (i1 - i0) * 10 ^ 0), ?_⟩,
               ⟨roundHalfEven ((r1 - r0) / (i1 - i0) * v / nop * 10 ^ 2), ?_⟩⟩
        · simp [npRound]
        · norm_num [npRound]
  · intro q
    constructor
    · have := roundHalfEven_dist q
      simpa [npRound] using this
    · have h100 := roundHalfEven_dist (q * 100)
      rw [npRound]
      norm_num
      rw [abs_le] at h100 ⊢
      constructor <;> [skip; skip] <;> linarith [h100.1, h100.2]

/-- Sympy differentiation with respect to a symbol that is not free in the
expression collapses to the literal zero expression, thanks to the automatic
simplification of the zero branches of every chain rule. -/
theorem deriv_of_not_occurs :
    ∀ (e : SymExpr) (i : ℕ), e.occurs i = false → e.deriv i = .const 0 := by
  intro e
  induction e with
  | const c => intro i h; rfl
  | var j =>
    intro i h
    simp only [SymExpr.occurs, decide_eq_false_iff_not] at h
    simp [SymExpr.deriv, h]
  | add a b iha ihb =>
    intro i h
    simp only [SymExpr.occurs, Bool.or_eq_false_iff] at h
    simp [SymExpr.deriv, iha i h.1, ihb i h.2, SymExpr.addS]
  | sub a b iha ihb =>
    intro i h
    simp only [SymExpr.occurs, Bool.or_eq_false_iff] at h
    simp [SymExpr.deriv, iha i h.1, ihb i h.2, SymExpr.subS]
  | mul a b iha ihb =>
    intro i h
    simp only [SymExpr.occurs, Bool.or_eq_false_iff] at h
    simp [SymExpr.deriv, iha i h.1, ihb i h.2, SymExpr.mulS, SymExpr.addS]
  | div a b iha ihb =>
    intro i h
    simp only [SymExpr.occurs, Bool.or_eq_false_iff] at h
    simp [SymExpr.deriv, iha i h.1, ihb i h.2, SymExpr.mulS, SymExpr.subS,
      SymExpr.divS]
  | pow a b iha ihb =>
    intro i h
    simp only [SymExpr.occurs, Bool.or_eq_false_iff] at h
    simp [SymExpr.deriv, iha i h.1, ihb i h.2, SymExpr.mulS, SymExpr.addS,
      SymExpr.divS]
  | log a iha =>
    intro i h
    simp only [SymExpr.occurs] at h
    simp [SymExpr.deriv, iha i h, SymExpr.divS]

/-- C8: in the symbolic engine, a parameter symbol that does not occur in the
expression has partial derivative exactly the zero expression, and — whenever
the operating-point output is a nonzero rational — the per-parameter call
returns successfully with absolute and relative sensitivity exactly 0,
whatever the parameter's operating value. -/
theorem C8_absent_symbol_gives_zero_sensitivities (e : SymExpr) (i : ℕ)
    (h : e.occurs i = false) :
    e.deriv i = .const 0 ∧
    ∀ (env : ℕ → ℚ) (nop : ℚ), e.eval env = some nop → nop ≠ 0 →
      get_sensitivity_for_parameter e env i =
        some ⟨0, 0⟩ := by
  refine ⟨deriv_of_not_occurs e i h, ?_⟩
  intro env nop heval hnz
  unfold get_sensitivity_for_parameter
  rw [heval, deriv_of_not_occurs e i h]
  simp [SymExpr.eval, hnz]

theorem C2_witness :
    ∃ nop, fone ([("x", (1 : ℚ))].map Prod.snd) = .ok nop ∧
      outW.calls.get? 0 = some ([("x", (1 : ℚ))].map Prod.snd) ∧
      ∀ i p v, [("x", (1 : ℚ))].get? i = some (p, v) →
        ∃ low high flow fhigh res,
          (∃ interval, resolveInterval none (.scalar (1 / 20)) p v = .ok interval ∧
            interval.get? 0 = some low ∧ interval.get? 1 = some high) ∧
          fone ((dictSet [("x", (1 : ℚ))] p low).map Prod.snd) = .ok flow ∧
          fone ((dictSet [("x", (1 : ℚ))] p high).map Prod.snd) = .ok fhigh ∧
          outW.sensitivities.get? i = some (p, res) ∧
          res.absolute_sensitivity = npRound ((fhigh - flow) / (high - low)) 0 ∧
          res.relative_sensitivity =
            npRound ((fhigh - flow) / (high - low) * v / nop) 2 :=
  C2_sensitivity_formulas_with_shared_operating_point fone [("x", 1)]
    (.scalar (1 / 20)) none outW
    (by norm_num +decide [get_sensitivities_numerical, sensLoop, processParam,
      resolveInterval, lookupExplicitInterval, widthInterval, resolveRelWidth,
      evalAtValues, dictSet, fone, pyIndex, pyDiv, linearityRatio, npRound,
      roundHalfEven, outW])

theorem C3_witness :
    (resolveInterval (some [("p", [2, 3])]) (.scalar (1 / 20)) "p" 5 = .ok [2, 3] ∧
      processParam fone 7 [("p", 5)] (.scalar (1 / 20)) (some [("p", [2, 3])]) "p" 5 =
        processParam fone 7 [("p", 5)] (.mapping [("p", 1 / 2)])
          (some [("p", [2, 3])]) "p" 5) ∧
    resolveInterval none (.scalar (1 / 20)) "p" 5 =
      .ok [5 * (1 - 1 / 20), 5 * (1 + 1 / 20)] ∧
    resolveInterval none (.mapping [("p", 1 / 10)]) "p" 5 =
      .ok [5 * (1 - 1 / 10), 5 * (1 + 1 / 10)] ∧
    resolveInterval none (.mapping [("q", 1), ("default", 1 / 4)]) "p" 5 =
      .ok [5 * (1 - 1 / 4), 5 * (1 + 1 / 4)] := by
  refine ⟨?_, ?_, ?_, ?_⟩
  · have h := (C3_explicit_interval_overrides_width_policy (some [("p", [2, 3])])
      (.scalar (1 / 20)) "p" 5).1 [2, 3]
      (by simp [lookupExplicitInterval]) (by simp)
    exact ⟨h.1, h.2 fone 7 [("p", 5)] (.mapping [("p", 1 / 2)])⟩
  · exact ((C3_explicit_interval_overrides_width_policy none (.scalar (1 / 20))
      "p" 5).2 (Or.inl rfl)).1 (1 / 20) rfl
  · exact ((C3_explicit_interval_overrides_width_policy none
      (.mapping [("p", 1 / 10)]) "p" 5).2 (Or.inl rfl)).2.1 [("p", 1 / 10)]
      (1 / 10) rfl (by simp)
  · exact ((C3_explicit_interval_overrides_width_policy none
      (.mapping [("q", 1), ("default", 1 / 4)]) "p" 5).2 (Or.inl rfl)).2.2
      [("q", 1), ("default", 1 / 4)] (1 / 4) rfl (by rfl) (by rfl)

theorem C4_witness :
    (get_sensitivities_numerical fone [("a", 1), ("b", 2)]
      (.mapping [("a", 1 / 20)]) none).1 = .error (.valueErrorMissingWidth "b") := by
  have h := C4_missing_width_aborts_call fone [("a", 1 / 20)] none
    [("a", 1)] [] "b" 2 7 (by simp [fone])
    (by
      intro q w hm
      simp only [List.mem_singleton, Prod.mk.injEq] at hm
      obtain ⟨rfl, rfl⟩ := hm
      refine ⟨⟨0, 0⟩, none, [[19 / 20, 2], [21 / 20, 2]], ?_⟩
      norm_num +decide [processParam, resolveInterval, lookupExplicitInterval,
        widthInterval, resolveRelWidth, evalAtValues, dictSet, fone, pyIndex,
        pyDiv, linearityRatio, npRound, roundHalfEven])
    (Or.inl rfl) (by simp) (by simp)
  simpa using h

theorem C5_witness :
    linearityRatio 7 2 7 = 1 ∧
    processParam fone 7 [("x", 1)] (.scalar (1 / 20)) none "x" 1 =
      .ok (⟨0, 0⟩, none, [[19 / 20], [21 / 20]]) := by
  constructor
  · exact (C5_zero_denominator_ratio_one_and_diagnostic_nonfatal 7 2 7).1
      (by norm_num)
  · have h := (C5_zero_denominator_ratio_one_and_diagnostic_nonfatal 7 7 7).2
      fone [("x", 1)] (.scalar (1 / 20)) none "x" 1 [19 / 20, 21 / 20] [7, 7]
      [[19 / 20], [21 / 20]] (19 / 20) (21 / 20)
      (by norm_num +decide [resolveInterval, lookupExplicitInterval,
        widthInterval, resolveRelWidth])
      (by norm_num +decide [evalAtValues, dictSet, fone])
      rfl rfl rfl rfl (by norm_num) (by norm_num)
    rw [h]
    norm_num [npRound, roundHalfEven, linearityRatio]

theorem C7_witness :
    (∀ e ∈ outCube.sensitivities,
      (∃ n : ℤ, e.2.absolute_sensitivity = (n : ℚ)) ∧
      (∃ m : ℤ, e.2.relative_sensitivity = (m : ℚ) / 100)) ∧
    (∀ q : ℚ, |npRound q 0 - q| ≤ 1 / 2 ∧ |npRound q 2 - q| ≤ 1 / 200) :=
  C7_results_rounded_to_integer_and_centi fCube [("x", 1)] (.scalar (1 / 20))
    none outCube
    (by norm_num +decide [get_sensitivities_numerical, sensLoop, processParam,
      resolveInterval, lookupExplicitInterval, widthInterval, resolveRelWidth,
      evalAtValues, dictSet, fCube, pyIndex, pyDiv, linearityRatio, npRound,
      roundHalfEven, outCube])

theorem C8_witness :
    (SymExpr.var 1).deriv 0 = .const 0 ∧
    get_sensitivity_for_parameter (.var 1) (fun _ => 5) 0 = some ⟨0, 0⟩ := by
  have h := C8_absent_symbol_gives_zero_sensitivities (.var 1) 0 rfl
  exact ⟨h.1, h.2 (fun _ => 5) 5 rfl (by norm_num)⟩

theorem C9_witness :
    outW.sensitivities.map Prod.fst = [("x", (1 : ℚ))].map Prod.fst ∧
    ([("p", (⟨1, 1⟩ : ParamResult))]).map Prod.fst = ["p"] := by
  constructor
  · exact (C9_result_preserves_parameter_order fone [("x", 1)] (.scalar (1 / 20))
      none outW (.var 0) ["p"] (fun _ => 2) [("p", ⟨1, 1⟩)]).1
      (by norm_num +decide [get_sensitivities_numerical, sensLoop, processParam,
        resolveInterval, lookupExplicitInterval, widthInterval, resolveRelWidth,
        evalAtValues, dictSet, fone, pyIndex, pyDiv, linearityRatio, npRound,
        roundHalfEven, outW])
  · exact (C9_result_preserves_parameter_order fone [("x", 1)] (.scalar (1 / 20))
      none outW (.var 0) ["p"] (fun _ => 2) [("p", ⟨1, 1⟩)]).2
      (by norm_num +decide [get_sensitivities, get_sensitivities_go,
        get_sensitivity_for_parameter, SymExpr.eval, SymExpr.deriv])
